import Mathlib

/-!
Verification of the TorPool pool manager (src/TorPool.js of the tor-router
repository) against its natural-language specification.

The pool state, its operations and the load-balance methods are shallowly
embedded as pure Lean functions.  JavaScript in-place mutation is rendered as
explicit state passing: every operation returns the pool state as it stands
when the operation finishes, together with its result (a thrown error /
rejected promise becomes an `Except.error`, and the mutations performed before
the throw are kept in the returned state, exactly as in JavaScript).
-/

namespace TorRouter

/-- JavaScript string truthiness for an optional string field: `undefined`
(`none`) and the empty string are falsy, every other string is truthy. -/
def strTruthy : Option String → Bool
  | none => false
  | some s => s ≠ ""

/-- A runtime tor configuration map, modelled as an association list with
first-match lookup (`List.lookup`). -/
abbrev TorConfig := List (String × String)

/-- lodash `_.extend(dst, src)`: every key of the override wins over the
defaults.  With first-match lookup, prepending the override realises the
key-by-key override semantics. -/
def lextend (dst src : TorConfig) : TorConfig := src ++ dst

/-- JavaScript property assignment `obj[k] = v` on a config object, rendered
for first-match association lists. -/
def setKey (c : TorConfig) (k v : String) : TorConfig := (k, v) :: c

/-- `path.join(a, b)` for the two-argument uses in TorPool. -/
def pathJoin (a b : String) : String := a ++ "/" ++ b

/-- First-occurrence deduplication, as lodash `_.uniq`. -/
def luniqAux (seen : List String) : List String → List String
  | [] => []
  | x :: xs => if x ∈ seen then luniqAux seen xs else x :: luniqAux (x :: seen) xs

/-- lodash `_.uniq`. -/
def luniq (l : List String) : List String := luniqAux [] l

/-- lodash `_.union(xs, ys)`: unique values of the concatenation, in order of
first occurrence. -/
def lunion (xs ys : List String) : List String := luniq (xs ++ ys)

/-- Stable insertion of `x` into a list sorted by `le`: `x` goes after every
already-present element `y` with `le y x`. -/
def insSorted (le : α → α → Bool) (x : α) : List α → List α
  | [] => [x]
  | y :: ys => if le y x then y :: insSorted le x ys else x :: y :: ys

/-- Stable sort by `le` (insertion sort), as lodash `_.sortBy`. -/
def lsortBy (le : α → α → Bool) (l : List α) : List α :=
  l.foldl (fun acc x => insSorted le x acc) []

/-- The instance definition: optional `Name`, `Group` label list, optional
`Weight`, optional explicit `Config` override map. -/
structure Definition where
  Name : Option String
  Group : List String
  Weight : Option Nat
  Config : Option TorConfig
deriving DecidableEq

/-- A pool member: the Instance Handle (TorProcess) as far as the pool reads
it — its `id` assigned by the pool and its `definition`. -/
structure Instance where
  id : String
  definition : Definition
deriving DecidableEq

/-- Modelled from the spec: `instance_name` is a readable attribute of the
Instance Handle (TorProcess is outside src/); it exposes the Name of the
definition the handle was constructed with. -/
def Instance.instance_name (i : Instance) : Option String := i.definition.Name

/-- Modelled from the spec: `instance_group` is a readable attribute of the
Instance Handle (TorProcess is outside src/); it exposes the Group label set
of the definition the handle was constructed with. -/
def Instance.instance_group (i : Instance) : List String := i.definition.Group

/-- The two load-balance methods named by `TorPool.load_balance_methods`. -/
inductive LBMethod where
  | round_robin
  | weighted
deriving DecidableEq

/-- Modelled from the spec: the Instance Handle fires exactly one of the
`ready` / `error` signals per creation attempt, after `create()` has begun
the asynchronous startup. -/
inductive HandleSignal where
  | ready
  | error
deriving DecidableEq

/-- The errors thrown / rejected by pool operations, per the spec taxonomy. -/
inductive PoolErr where
  | DuplicateNameError
  | NotFoundError
  | InstanceStartupError
  | TypeError
deriving DecidableEq

/-- The TorPool state: the ordered instance sequence `_instances`, the
weighted-selection cache `_weighted_list` attached to it (`none` when unset),
the default configuration template `_default_tor_config`, the base
`data_directory` and the current `load_balance_method`. -/
structure PoolState where
  instances : List Instance
  weightedCache : Option (List Instance)
  defaultTorConfig : Option TorConfig
  dataDirectory : String
  loadBalanceMethod : LBMethod
deriving DecidableEq

namespace TorPool

/-- `Array.prototype.rotate(count)` (the global patch at the top of
TorPool.js): splice the first `count mod length` elements off the front and
push them at the back.  On an empty array the JavaScript modulus is `NaN` and
`splice(0, NaN)` removes nothing, so the empty array is returned unchanged;
the zero-length branch renders that behaviour. -/
def jsRotate (l : List α) (count : Int) : List α :=
  if l.length = 0 then l
  else
    let c : Nat := (((count % (l.length : Int)) + l.length) % l.length).toNat
    l.drop c ++ l.take c

/-- Getter `instances`: a copy of the ordered sequence. -/
def instances (s : PoolState) : List Instance := s.instances

/-- Getter `instance_names`. -/
def instance_names (s : PoolState) : List (Option String) :=
  s.instances.map (·.instance_name)

/-- `instance_by_name(name)`: first instance whose `instance_name` equals the
requested name (`filter(...)[0]`). -/
def instance_by_name (s : PoolState) (nm : String) : Option Instance :=
  (s.instances.filter (fun i => i.instance_name == some nm)).head?

/-- `instance_at(index)`. -/
def instance_at (s : PoolState) (index : Nat) : Option Instance :=
  s.instances[index]?

/-- Getter `default_tor_config`: a deep clone of the template when set, the
empty config otherwise.  (The generator-function variant of the template is
outside this model; deep cloning is value semantics here.) -/
def default_tor_config (s : PoolState) : TorConfig :=
  match s.defaultTorConfig with
  | some c => c
  | none => []

/-- The duplicate-name guard of `create_instance`:
`instance_definition.Name && instance_names.indexOf(Name) !== -1`. -/
def duplicate_name_check (s : PoolState) (d : Definition) : Bool :=
  strTruthy d.Name && decide (d.Name ∈ instance_names s)

/-- The merge performed at creation: deep copy of the default template,
shallow-extended with the explicit override map (`_.extend(_.cloneDeep(
default_tor_config), Config || \x7b\x7d)`). -/
def effective_config (s : PoolState) (d : Definition) : TorConfig :=
  lextend (default_tor_config s) (d.Config.getD [])

/-- Line 27 of `create_instance`:
`Config.DataDirectory = Config.DataDirectory || path.join(...)`. -/
def apply_data_directory (c : TorConfig) (dd : String) : TorConfig :=
  setKey c "DataDirectory"
    (if strTruthy (c.lookup "DataDirectory") then (c.lookup "DataDirectory").getD "" else dd)

/-- The result of a `create_instance` call: the pool state when the promise
settles, the settled result, and the caller-supplied definition object as the
call leaves it (JavaScript mutates it in place). -/
structure CreateResult where
  state : PoolState
  result : Except PoolErr Instance
  definition : Definition

/-- `create_instance(instance_definition)`.  The fresh nanoid and the single
ready/error signal of the Instance Handle are supplied as parameters
(`instance_id`, `sig`); the base data-directory creation is a filesystem
effect outside the model.  Mirrors the source order: duplicate-name check,
weighted-cache invalidation, config merge, DataDirectory default, handle
construction, push onto `_instances`, then resolution on `ready` or rejection
on `error`. -/
def create_instance (s : PoolState) (instance_definition : Definition)
    (instance_id : String) (sig : HandleSignal) : CreateResult :=
  if duplicate_name_check s instance_definition then
    { state := s, result := .error .DuplicateNameError, definition := instance_definition }
  else
    let s1 : PoolState := { s with weightedCache := none }
    let cfg1 := effective_config s instance_definition
    let dd := pathJoin s.dataDirectory
      (if strTruthy instance_definition.Name
       then instance_definition.Name.getD "" else instance_id)
    let cfg2 := apply_data_directory cfg1 dd
    let d2 : Definition := { instance_definition with Config := some cfg2 }
    let inst : Instance := { id := instance_id, definition := d2 }
    let s2 : PoolState := { s1 with instances := s1.instances ++ [inst] }
    match sig with
    | .ready => { state := s2, result := .ok inst, definition := d2 }
    | .error => { state := s2, result := .error .InstanceStartupError, definition := d2 }

/-- `add_instance_to_group(group, instance)`:
`instance.definition.Group = _.union(instance.instance_group, [group])`.
The in-place mutation of the instance is rendered as the updated value. -/
def add_instance_to_group (group : String) (inst : Instance) : Instance :=
  { inst with definition :=
    { inst.definition with Group := lunion inst.instance_group [group] } }

/-- `remove_instance_from_group(group, instance)`:
`_.remove(instance.definition.Group, g => g === group)` keeps exactly the
labels different from `group`. -/
def remove_instance_from_group (group : String) (inst : Instance) : Instance :=
  { inst with definition :=
    { inst.definition with Group := inst.definition.Group.filter (fun g => g ≠ group) } }

/-- Getter `group_names`: the sorted set of the labels carried by current
instances (`new Set(_.uniq(_.flatten(instances.map(instance_group))).sort())`);
the set is modelled by its sorted duplicate-free element list. -/
def group_names (s : PoolState) : List String :=
  lsortBy (fun a b => !decide (b < a)) (luniq (s.instances.flatMap (·.instance_group)))

/-- lodash `_.sortBy(instances, instance_name)`: stable ascending sort by
name; instances without a name rank last, as undefined does in lodash. -/
def nameLe (a b : Instance) : Bool :=
  match a.instance_name, b.instance_name with
  | none, none => true
  | none, some _ => false
  | some _, none => true
  | some x, some y => !decide (y < x)

/-- The `groups` getter, read at label `L`: when `L` is a known group name the
current instances carrying `L` are filtered out, and the (possibly empty)
selection is sorted by `instance_name`; the proxy then exposes that list. -/
def groups (s : PoolState) (label : String) : List Instance :=
  let instances_in_group :=
    if label ∈ group_names s
    then s.instances.filter (fun i => label ∈ i.instance_group)
    else []
  lsortBy nameLe instances_in_group

/-- The final state and settled result of a mutating pool operation; the
state keeps every mutation performed before a throw, as in JavaScript. -/
structure OpResult where
  state : PoolState
  result : Except PoolErr Unit

/-- `remove(instances)`: invalidate the weighted cache, splice the first `n`
instances off the sequence and exit each of them (the exits are Instance
Handle effects outside the model). -/
def remove (s : PoolState) (n : Nat) : OpResult :=
  let s1 : PoolState := { s with weightedCache := none }
  { state := { s1 with instances := s1.instances.drop n }, result := .ok () }

/-- `remove_at(instance_index)`: invalidate the weighted cache, splice one
instance out and exit it.  When the index is out of range the splice yields
nothing and `instance.exit()` is a call on undefined: a TypeError after the
cache was already cleared. -/
def remove_at (s : PoolState) (instance_index : Nat) : OpResult :=
  let s1 : PoolState := { s with weightedCache := none }
  if instance_index < s1.instances.length then
    { state := { s1 with instances := s1.instances.eraseIdx instance_index },
      result := .ok () }
  else
    { state := s1, result := .error .TypeError }

/-- `remove_by_name(instance_name)`: look the instance up, throw when absent
(the pool untouched), otherwise delegate to `remove_at` at its index. -/
def remove_by_name (s : PoolState) (instance_name' : String) : OpResult :=
  match instance_by_name s instance_name' with
  | none => { state := s, result := .error .NotFoundError }
  | some inst => remove_at s (s.instances.indexOf inst)

/-- `exit()`: exit every instance (Handle effects outside the model) and
replace `_instances` with a fresh empty array — which carries no attached
`_weighted_list`. -/
def exit (s : PoolState) : PoolState :=
  { s with instances := [], weightedCache := none }

/-- `next()`: apply the current load-balance method to `_instances`, store
the reordered sequence back, and return its first element (`undefined`, i.e.
`none`, on an empty pool).  The weighted method builds its cache from the
current members when absent, draws a weighted random permutation of the
cached members — supplied as the oracle `draw`, since `js-weighted-list` is
an external collaborator — takes `length` of them, and reattaches the cache
to the new sequence.  The round-robin method rotates the sequence left by
one and leaves any attached cache in place. -/
def next (draw : List Instance → List Instance) (s : PoolState) :
    PoolState × Option Instance :=
  match s.loadBalanceMethod with
  | .round_robin =>
    let l := jsRotate s.instances 1
    ({ s with instances := l }, l.head?)
  | .weighted =>
    let cache := s.weightedCache.getD s.instances
    let l := (draw cache).take s.instances.length
    ({ s with instances := l, weightedCache := some cache }, l.head?)

end TorPool

open TorPool

/-- Key-by-key semantics of the lodash extend used in the creation merge: the
override wins, the deep-copied default fills the remaining keys. -/
theorem lookup_lextend (dst src : TorConfig) (k : String) :
    (lextend dst src).lookup k = (src.lookup k).or (dst.lookup k) := by
  induction src with
  | nil => simp [lextend]
  | cons hd tl ih =>
    obtain ⟨a, b⟩ := hd
    simp only [lextend, List.cons_append, List.lookup] at *
    cases h : k == a <;> simp [h, ih]

/-- Membership in the first-occurrence deduplication worker. -/
theorem mem_luniqAux (a : String) (seen l : List String) :
    a ∈ luniqAux seen l ↔ a ∈ l ∧ a ∉ seen := by
  induction l generalizing seen with
  | nil => simp [luniqAux]
  | cons x xs ih =>
    by_cases hx : x ∈ seen
    · simp only [luniqAux, if_pos hx, ih, List.mem_cons]
      constructor
      · exact fun ⟨h1, h2⟩ => ⟨Or.inr h1, h2⟩
      · rintro ⟨rfl | h1, h2⟩
        · exact absurd hx h2
        · exact ⟨h1, h2⟩
    · simp only [luniqAux, if_neg hx, List.mem_cons, ih]
      by_cases hax : a = x
      · subst hax; simp [hx]
      · simp [hax]

/-- Membership in lodash uniq. -/
theorem mem_luniq (a : String) (l : List String) : a ∈ luniq l ↔ a ∈ l := by
  simp [luniq, mem_luniqAux]

/-- The deduplication worker never repeats an element. -/
theorem nodup_luniqAux (seen l : List String) : (luniqAux seen l).Nodup := by
  induction l generalizing seen with
  | nil => simp [luniqAux]
  | cons x xs ih =>
    simp only [luniqAux]
    by_cases hx : x ∈ seen
    · simpa [hx] using ih seen
    · rw [if_neg hx, List.nodup_cons]
      exact ⟨fun hmem => ((mem_luniqAux x _ xs).1 hmem).2 (List.mem_cons_self x _), ih _⟩

/-- lodash uniq never repeats an element. -/
theorem nodup_luniq (l : List String) : (luniq l).Nodup := nodup_luniqAux [] l

/-- Membership in lodash union. -/
theorem mem_lunion (a : String) (xs ys : List String) :
    a ∈ lunion xs ys ↔ a ∈ xs ∨ a ∈ ys := by
  simp [lunion, mem_luniq]

/-- Membership through stable insertion. -/
theorem mem_insSorted (le : α → α → Bool) (x a : α) (l : List α) :
    a ∈ insSorted le x l ↔ a = x ∨ a ∈ l := by
  induction l with
  | nil => simp [insSorted]
  | cons y ys ih =>
    simp only [insSorted]
    by_cases h : le y x = true
    · simp only [if_pos h, List.mem_cons, ih]
      tauto
    · simp only [if_neg h, List.mem_cons]

/-- Membership through the insertion-sort fold. -/
theorem mem_foldl_insSorted (le : α → α → Bool) (l acc : List α) (a : α) :
    a ∈ l.foldl (fun acc x => insSorted le x acc) acc ↔ a ∈ acc ∨ a ∈ l := by
  induction l generalizing acc with
  | nil => simp
  | cons x xs ih =>
    simp only [List.foldl_cons, ih, mem_insSorted, List.mem_cons]
    tauto

/-- Membership through the stable sort. -/
theorem mem_lsortBy (le : α → α → Bool) (l : List α) (a : α) :
    a ∈ lsortBy le l ↔ a ∈ l := by
  simp [lsortBy, mem_foldl_insSorted]

/-- A label is a current group name exactly when some current instance
carries it. -/
theorem mem_group_names (s : PoolState) (label : String) :
    label ∈ TorPool.group_names s ↔
      ∃ i ∈ s.instances, label ∈ i.instance_group := by
  simp [TorPool.group_names, mem_lsortBy, mem_luniq, List.mem_flatMap]

/-- Concrete fixture: an instance named A carrying the label g. -/
def instA : Instance :=
  { id := "ida",
    definition := { Name := some "A", Group := ["g"], Weight := none, Config := none } }

/-- Concrete fixture: an instance named B with no labels. -/
def instB : Instance :=
  { id := "idb",
    definition := { Name := some "B", Group := [], Weight := none, Config := none } }

/-- Concrete fixture: an instance named C with no labels. -/
def instC : Instance :=
  { id := "idc",
    definition := { Name := some "C", Group := [], Weight := none, Config := none } }

/-- Concrete fixture: a round-robin pool holding A, B, C in that order. -/
def poolABC : PoolState :=
  { instances := [instA, instB, instC], weightedCache := none,
    defaultTorConfig := none, dataDirectory := "/data",
    loadBalanceMethod := .round_robin }

/-- Concrete fixture: a round-robin pool holding only A. -/
def poolA : PoolState :=
  { instances := [instA], weightedCache := none,
    defaultTorConfig := none, dataDirectory := "/data",
    loadBalanceMethod := .round_robin }

/-- Concrete fixture: an empty round-robin pool. -/
def emptyPool : PoolState :=
  { instances := [], weightedCache := none,
    defaultTorConfig := none, dataDirectory := "/data",
    loadBalanceMethod := .round_robin }

/-- Concrete fixture: a fresh definition named D. -/
def defD : Definition :=
  { Name := some "D", Group := [], Weight := none, Config := none }

/-- Concrete fixture: a definition reusing the name A. -/
def defA2 : Definition :=
  { Name := some "A", Group := [], Weight := none, Config := none }

/-- Rotation of a three-element sequence left by one. -/
theorem jsRotate_three (x y z : α) :
    TorPool.jsRotate [x, y, z] (1 : Int) = [y, z, x] := by
  simp [TorPool.jsRotate]

/-- Claim C1 as stated is false on the code: with the Handle signalling
error, `create_instance` on an empty pool leaves the pool holding the new
instance, not the empty sequence it held before the call.  The source pushes
the instance onto `_instances` before it installs the ready/error listeners,
so the error path keeps the appended member. -/
theorem C1_counterexample :
    (TorPool.create_instance emptyPool defD "id1" .error).state.instances ≠
      emptyPool.instances := by decide

/-- Claim C1 (amended): when the Handle signals error during creation the
call rejects with InstanceStartupError, but the instance has already been
appended to the pool: the ordered instance sequence after the failed call
equals the sequence before it with the new instance appended at the end. -/
theorem C1_error_signal_rejects_but_appends (s : PoolState) (d : Definition)
    (fid : String) (h : TorPool.duplicate_name_check s d = false) :
    (TorPool.create_instance s d fid .error).result = .error .InstanceStartupError ∧
    ∃ inst : Instance,
      (TorPool.create_instance s d fid .error).state.instances =
        s.instances ++ [inst] := by
  refine ⟨by simp [TorPool.create_instance, h], ?_⟩
  simp [TorPool.create_instance, h]

/-- Witness for the amended C1 at a concrete input. -/
theorem C1_error_signal_rejects_but_appends_witness :
    (TorPool.create_instance emptyPool defD "id1" .error).result =
      .error .InstanceStartupError ∧
    ∃ inst : Instance,
      (TorPool.create_instance emptyPool defD "id1" .error).state.instances =
        emptyPool.instances ++ [inst] :=
  C1_error_signal_rejects_but_appends emptyPool defD "id1" (by decide)

/-- Claim C2 as stated is false on the code: with pool order A, B, C under
round robin, `next()` rotates first and then returns the new first element,
which is B, not A. -/
theorem C2_counterexample :
    (TorPool.next (fun l => l) poolABC).2 = some instB ∧ instB ≠ instA := by
  decide

/-- Claim C2 (amended): under round robin with pool order A, B, C, one call
to `next()` returns B and leaves the new pool order B, C, A; three
consecutive `next()` calls return B, C, A — each pool member exactly once —
and the fourth call returns B again. -/
theorem C2_round_robin_cycle (a b c : Instance) (s : PoolState)
    (draw : List Instance → List Instance)
    (hi : s.instances = [a, b, c]) (hm : s.loadBalanceMethod = .round_robin) :
    (TorPool.next draw s).2 = some b ∧
    (TorPool.next draw s).1.instances = [b, c, a] ∧
    (TorPool.next draw (TorPool.next draw s).1).2 = some c ∧
    (TorPool.next draw (TorPool.next draw s).1).1.instances = [c, a, b] ∧
    (TorPool.next draw (TorPool.next draw (TorPool.next draw s).1).1).2 = some a ∧
    (TorPool.next draw (TorPool.next draw (TorPool.next draw s).1).1).1.instances
      = [a, b, c] ∧
    (TorPool.next draw
      (TorPool.next draw (TorPool.next draw (TorPool.next draw s).1).1).1).2
      = some b := by
  obtain ⟨ins, wc, dc, dd, lbm⟩ := s
  dsimp only at hi hm
  subst hi; subst hm
  simp [TorPool.next, jsRotate_three]

/-- Witness for the amended C2 at a concrete input. -/
theorem C2_round_robin_cycle_witness :
    (TorPool.next (fun l => l) poolABC).2 = some instB :=
  (C2_round_robin_cycle instA instB instC poolABC (fun l => l) rfl rfl).1

/-- Claim C10: `next()` on an empty round-robin pool does not fail — the
rotation of the empty sequence is the empty sequence, the call returns no
instance, and the pool stays empty. -/
theorem C10_next_on_empty_pool (s : PoolState)
    (draw : List Instance → List Instance)
    (hi : s.instances = []) (hm : s.loadBalanceMethod = .round_robin) :
    TorPool.jsRotate s.instances (1 : Int) = [] ∧
    (TorPool.next draw s).2 = none ∧
    (TorPool.next draw s).1.instances = [] := by
  obtain ⟨ins, wc, dc, dd, lbm⟩ := s
  dsimp only at hi hm
  subst hi; subst hm
  simp [TorPool.next, TorPool.jsRotate]

/-- Witness for C10 at a concrete input. -/
theorem C10_next_on_empty_pool_witness :
    (TorPool.next (fun l => l) emptyPool).2 = none :=
  (C10_next_on_empty_pool emptyPool (fun l => l) rfl rfl).2.1

/-- Claim C3: when the definition carries a name already used by a pool
member, `create_instance` fails with DuplicateNameError, the pool state is
exactly what it was before the call, and the caller-supplied definition is
untouched — the failure precedes the cache invalidation, the merge and the
handle construction. -/
theorem C3_duplicate_name_rejected (s : PoolState) (d : Definition)
    (n fid : String) (sig : HandleSignal)
    (hn : d.Name = some n) (hne : n ≠ "")
    (hmem : some n ∈ TorPool.instance_names s) :
    (TorPool.create_instance s d fid sig).result = .error .DuplicateNameError ∧
    (TorPool.create_instance s d fid sig).state = s ∧
    (TorPool.create_instance s d fid sig).definition = d := by
  have hchk : TorPool.duplicate_name_check s d = true := by
    simp [TorPool.duplicate_name_check, hn, strTruthy, hne, hmem]
  simp [TorPool.create_instance, hchk]

/-- Witness for C3 at a concrete input. -/
theorem C3_duplicate_name_rejected_witness :
    (TorPool.create_instance poolABC defA2 "id1" .ready).result =
      .error .DuplicateNameError ∧
    (TorPool.create_instance poolABC defA2 "id1" .ready).state = poolABC ∧
    (TorPool.create_instance poolABC defA2 "id1" .ready).definition = defA2 :=
  C3_duplicate_name_rejected poolABC defA2 "A" "id1" .ready rfl (by decide)
    (by decide)

/-- Claim C4: the effective configuration built at creation satisfies, key by
key at the top level, override first and deep-copied default second; and no
creation call ever changes the default configuration template stored in the
pool. -/
theorem C4_config_merge (s : PoolState) (d : Definition) (k fid : String)
    (sig : HandleSignal) :
    (TorPool.effective_config s d).lookup k =
      ((d.Config.getD []).lookup k).or ((TorPool.default_tor_config s).lookup k) ∧
    (TorPool.create_instance s d fid sig).state.defaultTorConfig =
      s.defaultTorConfig := by
  constructor
  · exact lookup_lextend _ _ k
  · by_cases h : TorPool.duplicate_name_check s d
    · simp [TorPool.create_instance, h]
    · cases sig <;> simp [TorPool.create_instance, h]

/-- Claim C5: every operation that changes the pool membership —
`create_instance` when it appends, `remove`, `remove_at`, `remove_by_name`
and `exit` — leaves the weighted-selection cache cleared, so a later weighted
selection cannot read a cache built for a different member set. -/
theorem C5_membership_change_clears_cache :
    (∀ (s : PoolState) (d : Definition) (fid : String) (sig : HandleSignal),
      (TorPool.create_instance s d fid sig).state.instances ≠ s.instances →
      (TorPool.create_instance s d fid sig).state.weightedCache = none) ∧
    (∀ (s : PoolState) (n : Nat),
      (TorPool.remove s n).state.instances ≠ s.instances →
      (TorPool.remove s n).state.weightedCache = none) ∧
    (∀ (s : PoolState) (i : Nat),
      (TorPool.remove_at s i).state.instances ≠ s.instances →
      (TorPool.remove_at s i).state.weightedCache = none) ∧
    (∀ (s : PoolState) (nm : String),
      (TorPool.remove_by_name s nm).state.instances ≠ s.instances →
      (TorPool.remove_by_name s nm).state.weightedCache = none) ∧
    (∀ s : PoolState,
      (TorPool.exit s).instances ≠ s.instances →
      (TorPool.exit s).weightedCache = none) := by
  refine ⟨?_, ?_, ?_, ?_, ?_⟩
  · intro s d fid sig hchg
    by_cases h : TorPool.duplicate_name_check s d
    · simp [TorPool.create_instance, h] at hchg
    · cases sig <;> simp [TorPool.create_instance, h]
  · intro s n hchg
    simp [TorPool.remove]
  · intro s i hchg
    by_cases h : i < s.instances.length <;> simp [TorPool.remove_at, h]
  · intro s nm hchg
    cases hfind : TorPool.instance_by_name s nm with
    | none => simp [TorPool.remove_by_name, hfind] at hchg
    | some inst =>
      by_cases h : s.instances.indexOf inst < s.instances.length <;>
        simp [TorPool.remove_by_name, hfind, TorPool.remove_at, h]
  · intro s hchg
    simp [TorPool.exit]

/-- Witness for C5 at a concrete input. -/
theorem C5_membership_change_clears_cache_witness :
    (TorPool.exit poolABC).weightedCache = none :=
  C5_membership_change_clears_cache.2.2.2.2 poolABC (by decide)

/-- Claim C6: the group view for a label is exactly the name-sorted
subsequence of the current pool members whose label set contains the label —
empty when no member carries it — and, being recomputed from the live pool,
it never shows an instance that is not currently in the pool. -/
theorem C6_group_view_live (s : PoolState) (label : String) :
    TorPool.groups s label =
      lsortBy nameLe (s.instances.filter (fun i => label ∈ i.instance_group)) ∧
    ∀ inst : Instance, inst ∉ s.instances → inst ∉ TorPool.groups s label := by
  have hmain : TorPool.groups s label =
      lsortBy nameLe (s.instances.filter (fun i => label ∈ i.instance_group)) := by
    unfold TorPool.groups
    by_cases h : label ∈ TorPool.group_names s
    · simp [h]
    · have hnil : s.instances.filter (fun i => label ∈ i.instance_group) = [] := by
        rw [List.filter_eq_nil_iff]
        intro a ha hcontra
        exact h ((mem_group_names s label).2 ⟨a, ha, by simpa using hcontra⟩)
      simp [h, hnil]
  refine ⟨hmain, ?_⟩
  intro inst hnot hmem
  rw [hmain, mem_lsortBy] at hmem
  exact hnot (List.mem_filter.1 hmem).1

/-- Witness for C6 at a concrete input. -/
theorem C6_group_view_live_witness : instB ∉ TorPool.groups poolA "g" :=
  (C6_group_view_live poolA "g").2 instB (by decide)

/-- Claim C7: adding a label to an instance twice through the group mutators
leaves the label present exactly once in its label set, and removing a label
it does not carry is an error-free no-op. -/
theorem C7_group_label_idempotence (inst : Instance) (g : String) :
    (TorPool.add_instance_to_group g
        (TorPool.add_instance_to_group g inst)).instance_group.count g = 1 ∧
    (g ∉ inst.instance_group →
      TorPool.remove_instance_from_group g inst = inst) := by
  constructor
  · apply List.count_eq_one_of_mem
    · exact nodup_luniq _
    · exact (mem_lunion g _ _).2 (Or.inr (List.mem_singleton.2 rfl))
  · intro hno
    unfold TorPool.remove_instance_from_group
    have hfix : inst.definition.Group.filter (fun x => x ≠ g) =
        inst.definition.Group := by
      rw [List.filter_eq_self]
      intro a ha
      simp only [ne_eq, decide_eq_true_eq]
      rintro rfl
      exact hno ha
    rw [hfix]

/-- Witness for C7 at a concrete input. -/
theorem C7_group_label_idempotence_witness :
    (TorPool.add_instance_to_group "h"
        (TorPool.add_instance_to_group "h" instA)).instance_group.count "h" = 1 ∧
    TorPool.remove_instance_from_group "h" instA = instA :=
  ⟨(C7_group_label_idempotence instA "h").1,
   (C7_group_label_idempotence instA "h").2 (by decide)⟩

/-- Claim C8: `remove_by_name` with a name carried by no pool member rejects
with NotFoundError and leaves the pool state — sequence, order and cache —
exactly as it was. -/
theorem C8_remove_by_name_unknown (s : PoolState) (nm : String)
    (h : ∀ i ∈ s.instances, i.instance_name ≠ some nm) :
    (TorPool.remove_by_name s nm).result = .error .NotFoundError ∧
    (TorPool.remove_by_name s nm).state = s := by
  have hfind : TorPool.instance_by_name s nm = none := by
    unfold TorPool.instance_by_name
    rw [List.head?_eq_none_iff, List.filter_eq_nil_iff]
    intro a ha
    simp [h a ha]
  simp [TorPool.remove_by_name, hfind]

/-- Witness for C8 at a concrete input. -/
theorem C8_remove_by_name_unknown_witness :
    (TorPool.remove_by_name poolABC "Z").result = .error .NotFoundError ∧
    (TorPool.remove_by_name poolABC "Z").state = poolABC :=
  C8_remove_by_name_unknown poolABC "Z" (by decide)

/-- Claim C9: a creation call that passes the duplicate-name check rewrites
the caller-supplied definition in place — its Config field becomes the merged
effective configuration with the DataDirectory default applied — and when the
caller supplied no DataDirectory the stored configuration carries a
DataDirectory key afterwards. -/
theorem C9_definition_mutated (s : PoolState) (d : Definition)
    (fid : String) (sig : HandleSignal)
    (h : TorPool.duplicate_name_check s d = false) :
    (TorPool.create_instance s d fid sig).definition =
      { d with Config := some (TorPool.apply_data_directory
          (TorPool.effective_config s d)
          (pathJoin s.dataDirectory
            (if strTruthy d.Name then d.Name.getD "" else fid))) } ∧
    (strTruthy ((d.Config.getD []).lookup "DataDirectory") = false →
      (((TorPool.create_instance s d fid sig).definition.Config.getD
          []).lookup "DataDirectory").isSome = true) := by
  constructor
  · cases sig <;> simp [TorPool.create_instance, h]
  · intro hdd
    cases sig <;>
      simp [TorPool.create_instance, h, TorPool.apply_data_directory, setKey,
        List.lookup]

/-- Witness for C9 at a concrete input. -/
theorem C9_definition_mutated_witness :
    (((TorPool.create_instance emptyPool defD "id1"
        .ready).definition.Config.getD []).lookup "DataDirectory").isSome =
      true :=
  (C9_definition_mutated emptyPool defD "id1" .ready (by decide)).2 (by decide)

end TorRouter
